import Mathlib

/-- Truncation of a rational toward zero, modelling the C cast from double to Int. -/
def ratTrunc (q : ℚ) : Int := q.num.tdiv (q.den : Int)

/-- Embeds secsToUS (OpenEphysInterface.cpp lines 28-30): converts a remote timestamp in
seconds to integer microseconds by multiplying by 1e6 and truncating. Doubles are
modelled as rationals. -/
def secsToUS (t : ℚ) : Int := ratTrunc (t * 1000000)

/-- Event-type tag for spike events (OpenEphysInterface.h line 36). -/
def SPIKE : Nat := 4

/-- Modelled from the spec: the event-type constant TTL (= 3, spec section 6) is used by
handleEvents but its declaration is outside the provided sources. -/
def TTL : Nat := 3

/-- Configuration of the engine: the stored 0-based sync channel indices and the sync
interval. The syncInterval constant is declared outside the provided sources (spec
section 4.3: default 1 second), so it is kept as a configuration field whose value no
theorem below depends on. -/
structure Config where
  syncChannels : List Nat
  syncInterval : Int
deriving DecidableEq

/-- Local synchronization state of handleEvents (OpenEphysInterface.cpp lines 206-213).
Field lastSyncTime is the spec's lastSentTime, lastSyncValue the spec's sent code,
currentOESyncValue the spec's received code, oeClockOffset the ClockOffset. -/
structure SyncState where
  lastSyncTime : Int
  lastSyncValue : Nat
  currentOESyncValue : Nat
  oeClockOffset : Int
  lastSyncReceivedTime : Int
  lastSyncReceiptCheckTime : Int
deriving DecidableEq

/-- Initial synchronization state at loop entry (lines 206-213): both receipt-tracking
times start at the current time t0, everything else at zero. -/
def initialSyncState (t0 : Int) : SyncState := ⟨0, 0, 0, 0, t0, t0⟩

/-- Embeds the bit-reversal loop of the drive step (lines 219-223): iteration i shifts
the accumulator left once and ors in bit i of v. -/
def reverseBits (v : Nat) : Nat → Nat
  | 0 => 0
  | n + 1 => 2 * reverseBits v n ||| ((v &&& (1 <<< n)) >>> n)

/-- Embeds the drive step (lines 216-228): when no cycle has ever been driven
(lastSyncTime = 0) or the interval has elapsed, advance the code modulo 1 <<< n, write
its bit-reversal to the sync output and record the post-write time tA. tC is the host
time sampled for the interval check, tA the host time sampled after the write returns.
The second component is the value written to the digital output, if any. -/
def driveStep (cfg : Config) (tC tA : Int) (s : SyncState) : SyncState × Option Nat :=
  if s.lastSyncTime = 0 ∨ tC - s.lastSyncTime ≥ cfg.syncInterval then
    let numSyncValues : Nat := 1 <<< cfg.syncChannels.length
    let syncValue := (s.lastSyncValue + 1) % numSyncValues
    ({ s with lastSyncTime := tA, lastSyncValue := syncValue },
      some (reverseBits syncValue cfg.syncChannels.length))
  else (s, none)

/-- Stall-check interval (line 211): 5 seconds in microseconds. -/
def syncReceiptCheckInterval : Int := 5000000

/-- Embeds the stall check (lines 230-238): when at least syncReceiptCheckInterval has
elapsed since lastSyncReceiptCheckTime, the diagnostic fires (returned Bool) and only
lastSyncReceiptCheckTime is advanced to now. -/
def stallStep (now : Int) (s : SyncState) : SyncState × Bool :=
  if now - s.lastSyncReceiptCheckTime ≥ syncReceiptCheckInterval then
    ({ s with lastSyncReceiptCheckTime := now }, true)
  else (s, false)

/-- Payload of a TTL event (OpenEphysInterface.cpp lines 35-40). -/
structure TTLEvent where
  nodeID : Nat
  eventID : Nat
  eventChannel : Nat
deriving DecidableEq

/-- Embeds the scan loop of lines 256-257: the index of the first configured channel
equal to the event's channel, or none. -/
def findSyncIndexAux (ec : Nat) : List Nat → Nat → Option Nat
  | [], _ => none
  | c :: rest, i => if c = ec then some i else findSyncIndexAux ec rest (i + 1)

/-- Index at which an inbound TTL event channel matches the stored sync channels. -/
def findSyncIndex (chans : List Nat) (ec : Nat) : Option Nat :=
  findSyncIndexAux ec chans 0

/-- Mask selecting the bit controlled by position i (line 258): 1 << (n - 1 - i). -/
def maskAt (cfg : Config) (i : Nat) : Nat := 1 <<< (cfg.syncChannels.length - 1 - i)

/-- Embeds `v &= ~mask` (line 262) without a machine-width complement: clears exactly
the bits of mask. -/
def clearMask (v mask : Nat) : Nat := v ^^^ (v &&& mask)

/-- Observable outcome of processing one TTL event in the receive step. -/
inductive ReceiveOutcome where
  | ignored
  | bitOnly
  | matched
  | mismatched
deriving DecidableEq

/-- Embeds the receive step for one TTL event (lines 254-286): scan for the matching
channel; set or clear its bit of the received code; when the match is at the last
position, record the receipt times and compare the reconstructed code to the sent one,
either publishing a new clock offset (match) or resetting the cycle (mismatch). -/
def receiveTTL (cfg : Config) (now : Int) (ts : ℚ) (e : TTLEvent) (s : SyncState) :
    SyncState × ReceiveOutcome :=
  let n := cfg.syncChannels.length
  match findSyncIndex cfg.syncChannels e.eventChannel with
  | none => (s, .ignored)
  | some i =>
      let v := if e.eventID ≠ 0 then s.currentOESyncValue ||| maskAt cfg i
               else clearMask s.currentOESyncValue (maskAt cfg i)
      if i = n - 1 then
        if v = s.lastSyncValue then
          ({ s with currentOESyncValue := v,
                    lastSyncReceivedTime := now,
                    lastSyncReceiptCheckTime := now,
                    oeClockOffset := s.lastSyncTime - secsToUS ts }, .matched)
        else
          ({ s with currentOESyncValue := 0,
                    lastSyncReceivedTime := now,
                    lastSyncReceiptCheckTime := now,
                    lastSyncTime := 0,
                    lastSyncValue := 0 }, .mismatched)
      else
        ({ s with currentOESyncValue := v }, .bitOnly)

/-- Processes a list of timed TTL events through the receive step, collecting the
outcome of each event in order. -/
def receiveAll (cfg : Config) (s : SyncState) :
    List (Int × ℚ × TTLEvent) → SyncState × List ReceiveOutcome
  | [] => (s, [])
  | (now, ts, e) :: rest =>
      let r := receiveTTL cfg now ts e s
      let r2 := receiveAll cfg r.1 rest
      (r2.1, r.2 :: r2.2)

/-- The echo of code c for positions k, k+1, ... : one TTL event per configured channel
in scan order, each carrying the MSB-first bit of c for its position, paired with the
given receive times and remote timestamps. -/
def mkRoundTrip (cfg : Config) (c : Nat) : Nat → List (Int × ℚ) → List (Int × ℚ × TTLEvent)
  | _, [] => []
  | i, t :: ts =>
      (t.1, t.2,
        ⟨0, if c.testBit (cfg.syncChannels.length - 1 - i) then 1 else 0,
         cfg.syncChannels.getD i 0⟩) :: mkRoundTrip cfg c (i + 1) ts

lemma two_mul_or_one (r : Nat) : 2 * r ||| 1 = 2 * r + 1 := by
  apply Nat.eq_of_testBit_eq
  intro i
  cases i with
  | zero =>
      simp only [Nat.testBit_or, Nat.testBit_zero]
      have h1 : 2 * r % 2 = 0 := by omega
      have h2 : (2 * r + 1) % 2 = 1 := by omega
      simp [h1, h2]
  | succ j =>
      rw [Nat.testBit_or, Nat.testBit_succ, Nat.testBit_succ, Nat.testBit_succ]
      have h1 : 2 * r / 2 = r := by omega
      have h2 : (1 : Nat) / 2 = 0 := by norm_num
      have h3 : (2 * r + 1) / 2 = r := by omega
      rw [h1, h2, h3, Nat.zero_testBit, Bool.or_false]

lemma and_one_shiftLeft_shiftRight (v n : Nat) :
    (v &&& (1 <<< n)) >>> n = if v.testBit n then 1 else 0 := by
  rw [Nat.one_shiftLeft, Nat.and_two_pow, Nat.shiftRight_eq_div_pow,
    Nat.mul_div_cancel _ (Nat.two_pow_pos n)]
  cases v.testBit n <;> simp

lemma reverseBits_succ (v n : Nat) :
    reverseBits v (n + 1) = 2 * reverseBits v n + (if v.testBit n then 1 else 0) := by
  show 2 * reverseBits v n ||| ((v &&& (1 <<< n)) >>> n) = _
  rw [and_one_shiftLeft_shiftRight]
  cases h : v.testBit n
  · simp
  · simp [two_mul_or_one]

lemma reverseBits_lt (v n : Nat) : reverseBits v n < 2 ^ n := by
  induction n with
  | zero => simp [reverseBits]
  | succ m ih =>
      rw [reverseBits_succ, pow_succ]
      cases v.testBit m <;> simp <;> omega

lemma reverseBits_testBit (v : Nat) : ∀ n j : Nat, j < n →
    (reverseBits v n).testBit j = v.testBit (n - 1 - j) := by
  intro n
  induction n with
  | zero => omega
  | succ m ih =>
      intro j hj
      rw [reverseBits_succ]
      cases j with
      | zero =>
          rw [Nat.testBit_zero]
          cases h : v.testBit m <;> simp [h] <;> omega
      | succ j' =>
          rw [Nat.testBit_succ]
          have hdiv : (2 * reverseBits v m + (if v.testBit m then 1 else 0)) / 2
              = reverseBits v m := by
            cases v.testBit m <;> simp <;> omega
          rw [hdiv, ih j' (by omega)]
          congr 1
          omega

lemma setMask_testBit (v k j : Nat) :
    (v ||| (1 <<< k)).testBit j = if k = j then true else v.testBit j := by
  rw [Nat.one_shiftLeft, Nat.testBit_or]
  by_cases h : k = j
  · rw [if_pos h, h, Nat.testBit_two_pow_self, Bool.or_true]
  · rw [if_neg h, Nat.testBit_two_pow_of_ne h, Bool.or_false]

lemma clearMask_testBit (v k j : Nat) :
    (clearMask v (1 <<< k)).testBit j = if k = j then false else v.testBit j := by
  rw [clearMask, Nat.one_shiftLeft, Nat.testBit_xor, Nat.testBit_and]
  by_cases h : k = j
  · rw [if_pos h, h, Nat.testBit_two_pow_self, Bool.and_true]
    cases v.testBit j <;> rfl
  · rw [if_neg h, Nat.testBit_two_pow_of_ne h, Bool.and_false]
    cases v.testBit j <;> rfl

lemma findSyncIndexAux_isSome (ec : Nat) (l : List Nat) : ∀ i : Nat,
    (findSyncIndexAux ec l i).isSome = true ↔ ec ∈ l := by
  induction l with
  | nil => intro i; simp [findSyncIndexAux]
  | cons c rest ih =>
      intro i
      by_cases h : c = ec
      · simp [findSyncIndexAux, h]
      · simp only [findSyncIndexAux, if_neg h, List.mem_cons, ih]
        constructor
        · intro hm; exact Or.inr hm
        · rintro (hm | hm)
          · exact absurd hm.symm h
          · exact hm

lemma findSyncIndexAux_some (ec : Nat) (l : List Nat) : ∀ off j : Nat,
    findSyncIndexAux ec l off = some j →
    off ≤ j ∧ j - off < l.length ∧ l.getD (j - off) 0 = ec := by
  induction l with
  | nil => intro off j h; simp [findSyncIndexAux] at h
  | cons c rest ih =>
      intro off j h
      by_cases hc : c = ec
      · simp only [findSyncIndexAux, if_pos hc, Option.some.injEq] at h
        subst h
        simp [hc]
      · simp only [findSyncIndexAux, if_neg hc] at h
        obtain ⟨h1, h2, h3⟩ := ih (off + 1) j h
        refine ⟨by omega, by simp only [List.length_cons]; omega, ?_⟩
        have heq : j - off = (j - (off + 1)) + 1 := by omega
        rw [heq, List.getD_cons_succ]
        exact h3

lemma findSyncIndex_some (chans : List Nat) (ec i : Nat)
    (h : findSyncIndex chans ec = some i) :
    i < chans.length ∧ chans.getD i 0 = ec := by
  obtain ⟨h1, h2, h3⟩ := findSyncIndexAux_some ec chans 0 i h
  rw [Nat.sub_zero] at h2 h3
  exact ⟨h2, h3⟩

lemma findSyncIndex_isSome (chans : List Nat) (ec : Nat) :
    (findSyncIndex chans ec).isSome = true ↔ ec ∈ chans :=
  findSyncIndexAux_isSome ec chans 0

lemma findSyncIndexAux_getD (l : List Nat) (hnd : l.Nodup) : ∀ j off : Nat,
    j < l.length → findSyncIndexAux (l.getD j 0) l off = some (off + j) := by
  induction l with
  | nil => intro j off hj; simp at hj
  | cons c rest ih =>
      intro j off hj
      obtain ⟨hcm, hrest⟩ := List.nodup_cons.mp hnd
      cases j with
      | zero => simp [findSyncIndexAux, List.getD_cons_zero]
      | succ j' =>
          have hj' : j' < rest.length := by simpa using hj
          have hmem : rest.getD j' 0 ∈ rest := by
            rw [List.getD_eq_getElem rest 0 hj']
            exact List.getElem_mem hj'
          have hne : ¬ c = rest.getD j' 0 := by
            intro hcon
            exact hcm (hcon ▸ hmem)
          rw [List.getD_cons_succ]
          simp only [findSyncIndexAux, if_neg hne]
          rw [ih hrest j' (off + 1) hj']
          congr 1
          omega

lemma findSyncIndex_getD (l : List Nat) (hnd : l.Nodup) (j : Nat) (hj : j < l.length) :
    findSyncIndex l (l.getD j 0) = some j := by
  have h := findSyncIndexAux_getD l hnd j 0 hj
  rw [Nat.zero_add] at h
  exact h

lemma receiveTTL_none (cfg : Config) (now : Int) (ts : ℚ) (e : TTLEvent) (s : SyncState)
    (hfind : findSyncIndex cfg.syncChannels e.eventChannel = none) :
    receiveTTL cfg now ts e s = (s, .ignored) := by
  unfold receiveTTL
  rw [hfind]

lemma receiveTTL_some_ne_last (cfg : Config) (now : Int) (ts : ℚ) (e : TTLEvent)
    (s : SyncState) (i : Nat)
    (hfind : findSyncIndex cfg.syncChannels e.eventChannel = some i)
    (hne : i ≠ cfg.syncChannels.length - 1) :
    receiveTTL cfg now ts e s =
      ({ s with currentOESyncValue :=
            if e.eventID ≠ 0 then s.currentOESyncValue ||| maskAt cfg i
            else clearMask s.currentOESyncValue (maskAt cfg i) }, .bitOnly) := by
  unfold receiveTTL
  rw [hfind]
  simp only [if_neg hne]

lemma receiveTTL_last_match (cfg : Config) (now : Int) (ts : ℚ) (e : TTLEvent)
    (s : SyncState)
    (hfind : findSyncIndex cfg.syncChannels e.eventChannel
      = some (cfg.syncChannels.length - 1))
    (hv : (if e.eventID ≠ 0
            then s.currentOESyncValue ||| maskAt cfg (cfg.syncChannels.length - 1)
            else clearMask s.currentOESyncValue (maskAt cfg (cfg.syncChannels.length - 1)))
          = s.lastSyncValue) :
    receiveTTL cfg now ts e s =
      ({ s with
          currentOESyncValue :=
            if e.eventID ≠ 0
            then s.currentOESyncValue ||| maskAt cfg (cfg.syncChannels.length - 1)
            else clearMask s.currentOESyncValue (maskAt cfg (cfg.syncChannels.length - 1)),
          lastSyncReceivedTime := now,
          lastSyncReceiptCheckTime := now,
          oeClockOffset := s.lastSyncTime - secsToUS ts }, .matched) := by
  unfold receiveTTL
  rw [hfind]
  simp only [if_pos rfl, if_pos hv, if_true]

lemma receiveTTL_last_mismatch (cfg : Config) (now : Int) (ts : ℚ) (e : TTLEvent)
    (s : SyncState)
    (hfind : findSyncIndex cfg.syncChannels e.eventChannel
      = some (cfg.syncChannels.length - 1))
    (hv : (if e.eventID ≠ 0
            then s.currentOESyncValue ||| maskAt cfg (cfg.syncChannels.length - 1)
            else clearMask s.currentOESyncValue (maskAt cfg (cfg.syncChannels.length - 1)))
          ≠ s.lastSyncValue) :
    receiveTTL cfg now ts e s =
      ({ s with
          currentOESyncValue := 0,
          lastSyncReceivedTime := now,
          lastSyncReceiptCheckTime := now,
          lastSyncTime := 0,
          lastSyncValue := 0 }, .mismatched) := by
  unfold receiveTTL
  rw [hfind]
  simp only [if_pos rfl, if_neg hv, if_true]

lemma receiveAll_cons (cfg : Config) (s : SyncState) (now : Int) (ts : ℚ)
    (e : TTLEvent) (rest : List (Int × ℚ × TTLEvent)) :
    receiveAll cfg s ((now, ts, e) :: rest)
      = ((receiveAll cfg (receiveTTL cfg now ts e s).1 rest).1,
         (receiveTTL cfg now ts e s).2
           :: (receiveAll cfg (receiveTTL cfg now ts e s).1 rest).2) := rfl

lemma mkRoundTrip_cons (cfg : Config) (c i : Nat) (t : Int × ℚ)
    (ts : List (Int × ℚ)) :
    mkRoundTrip cfg c i (t :: ts)
      = (t.1, t.2,
          ⟨0, if c.testBit (cfg.syncChannels.length - 1 - i) then 1 else 0,
           cfg.syncChannels.getD i 0⟩) :: mkRoundTrip cfg c (i + 1) ts := rfl

lemma ite_one_zero_ne_zero (b : Bool) : ((if b = true then (1 : Nat) else 0) ≠ 0) = (b = true) := by
  cases b <;> simp

lemma receiveAll_roundTrip (cfg : Config) (hnd : cfg.syncChannels.Nodup) (c : Nat) :
    ∀ (times : List (Int × ℚ)) (k : Nat) (s : SyncState),
      k + times.length = cfg.syncChannels.length →
      times ≠ [] →
      s.lastSyncValue = c →
      (∀ j, cfg.syncChannels.length - k ≤ j →
        s.currentOESyncValue.testBit j = c.testBit j) →
      receiveAll cfg s (mkRoundTrip cfg c k times)
        = ({ s with
              currentOESyncValue := c,
              lastSyncReceivedTime := (times.getLastD (0, 0)).1,
              lastSyncReceiptCheckTime := (times.getLastD (0, 0)).1,
              oeClockOffset := s.lastSyncTime - secsToUS (times.getLastD (0, 0)).2 },
           List.replicate (times.length - 1) ReceiveOutcome.bitOnly
             ++ [ReceiveOutcome.matched]) := by
  intro times
  induction times with
  | nil => intro k s _ hne _ _; exact absurd rfl hne
  | cons t rest ih =>
      intro k s hlen hne hval hbits
      have hk : k < cfg.syncChannels.length := by
        simp only [List.length_cons] at hlen; omega
      have hfind : findSyncIndex cfg.syncChannels (cfg.syncChannels.getD k 0) = some k :=
        findSyncIndex_getD cfg.syncChannels hnd k hk
      have hmask : maskAt cfg k = 1 <<< (cfg.syncChannels.length - 1 - k) := rfl
      have htb : ∀ j, (if (if c.testBit (cfg.syncChannels.length - 1 - k) then 1 else 0) ≠ 0
            then s.currentOESyncValue ||| maskAt cfg k
            else clearMask s.currentOESyncValue (maskAt cfg k)).testBit j
          = if cfg.syncChannels.length - 1 - k = j
            then c.testBit (cfg.syncChannels.length - 1 - k)
            else s.currentOESyncValue.testBit j := by
        intro j
        simp only [ite_one_zero_ne_zero]
        cases hc : c.testBit (cfg.syncChannels.length - 1 - k) with
        | true => rw [if_pos rfl, hmask, setMask_testBit]
        | false => rw [if_neg (by simp), hmask, clearMask_testBit]
      cases rest with
      | nil =>
          have hkeq : k = cfg.syncChannels.length - 1 := by
            simp only [List.length_cons, List.length_nil] at hlen; omega
          subst hkeq
          have hvc : (if (if c.testBit (cfg.syncChannels.length - 1
                  - (cfg.syncChannels.length - 1)) then 1 else 0) ≠ 0
                then s.currentOESyncValue ||| maskAt cfg (cfg.syncChannels.length - 1)
                else clearMask s.currentOESyncValue
                  (maskAt cfg (cfg.syncChannels.length - 1))) = c := by
            apply Nat.eq_of_testBit_eq
            intro j
            rw [htb j]
            by_cases hj : cfg.syncChannels.length - 1 - (cfg.syncChannels.length - 1) = j
            · rw [if_pos hj, hj]
            · rw [if_neg hj]
              exact hbits j (by omega)
          rw [mkRoundTrip_cons, receiveAll_cons]
          rw [receiveTTL_last_match cfg t.1 t.2 _ s hfind (hvc.trans hval.symm)]
          dsimp only
          rw [hvc]
          rfl
      | cons t2 rest2 =>
          have hkne : k ≠ cfg.syncChannels.length - 1 := by
            simp only [List.length_cons] at hlen; omega
          rw [mkRoundTrip_cons, receiveAll_cons]
          rw [receiveTTL_some_ne_last cfg t.1 t.2 _ s k hfind hkne]
          dsimp only
          have hres := ih (k + 1)
            { s with currentOESyncValue :=
                if (if c.testBit (cfg.syncChannels.length - 1 - k) then 1 else 0) ≠ 0
                then s.currentOESyncValue ||| maskAt cfg k
                else clearMask s.currentOESyncValue (maskAt cfg k) }
            (by simp only [List.length_cons] at hlen ⊢; omega)
            (by simp)
            hval
            (by
              intro j hj
              dsimp only
              rw [htb j]
              by_cases hjeq : cfg.syncChannels.length - 1 - k = j
              · rw [if_pos hjeq, hjeq]
              · rw [if_neg hjeq]
                exact hbits j (by omega))
          rw [hres]
          dsimp only
          simp only [List.getLastD_cons, List.length_cons, Nat.add_sub_cancel,
            List.replicate_succ, List.cons_append]

/-- Byte i of the zero-initialized 28-byte event buffer after the payload has been
copied in (lines 242-247): memset fills the union with zeros and the receive copies at
most sizeof(event) = 28 bytes of the payload, so missing bytes read as zero and extra
bytes are dropped. -/
def eventBuffer (payload : List Nat) (i : Nat) : Nat := (payload.take 28).getD i 0

/-- Little-endian read of len bytes starting at offset off of the event buffer. -/
def readLE (payload : List Nat) (off : Nat) : Nat → Nat
  | 0 => 0
  | len + 1 => eventBuffer payload off + 256 * readLE payload (off + 1) len

/-- Interpretation of a 64-bit little-endian raw value as int64_t. -/
def toInt64 (raw : Nat) : Int := if raw < 2 ^ 63 then (raw : Int) else (raw : Int) - 2 ^ 64

/-- Spike payload header (OpenEphysInterface.cpp lines 42-52): 28 packed bytes. -/
structure SpikeEvent where
  timestamp : Int
  timestampSoftware : Int
  source : Nat
  nChannels : Nat
  nSamples : Nat
  sortedID : Nat
  electrodeID : Nat
  channel : Nat
deriving DecidableEq

/-- Decoded event: the tagged view of the OpenEphysEvent union (lines 33-59). -/
inductive OEEvent where
  | ttl (e : TTLEvent)
  | spike (e : SpikeEvent)
deriving DecidableEq

/-- Embeds the decode path of handleEvents (lines 240-303): the payload is copied into
the zeroed fixed-size buffer with no length validation, then interpreted according to
the type tag (TTL fields at bytes 0-2, Spike fields at bytes 0-27, host little-endian);
an unrecognized tag yields no event. -/
def decodeEvent (tag : Nat) (payload : List Nat) : Option OEEvent :=
  if tag = TTL then
    some (.ttl ⟨eventBuffer payload 0, eventBuffer payload 1, eventBuffer payload 2⟩)
  else if tag = SPIKE then
    some (.spike ⟨toInt64 (readLE payload 0 8), toInt64 (readLE payload 8 8),
      readLE payload 16 2, readLE payload 18 2, readLE payload 20 2,
      readLE payload 22 2, readLE payload 24 2, readLE payload 26 2⟩)
  else none

/-- Record forwarded to the spikes variable (lines 290-296). -/
structure SpikeRecord where
  oeTimestamp : Int
  sortedId : Nat
  electrodeId : Nat
  channel : Nat
  hostTime : Int
deriving DecidableEq

/-- Embeds the spike dispatch (lines 288-297): when the spikes variable is configured,
forward the four spike fields at host time secsToUS(eventTimestamp) + oeClockOffset;
otherwise nothing is forwarded. -/
def dispatchSpike (spikesConfigured : Bool) (ts : ℚ) (e : SpikeEvent) (s : SyncState) :
    Option SpikeRecord :=
  if spikesConfigured then
    some ⟨e.timestamp, e.sortedID, e.electrodeID, e.channel, secsToUS ts + s.oeClockOffset⟩
  else none

/-- Configuration failures raised by the constructor (lines 98-112). -/
inductive ConfigError where
  | invalidChannelNumber
  | nonAscending
  | emptyChannels
deriving DecidableEq

/-- Embeds the constructor loop (lines 100-109): each channel number is range-checked
against [1, 8], compared against the back of the already-stored vector (which holds
0-based values), and then stored 0-based. -/
def parseLoop : List Int → List Nat → Except ConfigError (List Nat)
  | [], acc => .ok acc
  | v :: rest, acc =>
      if v < 1 ∨ 8 < v then .error .invalidChannelNumber
      else if acc ≠ [] ∧ v ≤ (acc.getLastD 0 : Int) then .error .nonAscending
      else parseLoop rest (acc ++ [(v - 1).toNat])

/-- Embeds the sync-channel validation of the constructor (lines 98-112): run the loop
on the configured values, then require a non-empty result. -/
def parseSyncChannels (values : List Int) : Except ConfigError (List Nat) :=
  match parseLoop values [] with
  | .error e => .error e
  | .ok chans => if chans = [] then .error .emptyChannels else .ok chans

/-- Lifecycle state of the device: the running flag, the transport connection and the
event-handler thread (OpenEphysInterface.h lines 49-56). -/
structure LifecycleState where
  running : Bool
  connected : Bool
  threadActive : Bool
deriving DecidableEq

/-- Embeds startDeviceIO (lines 155-172): a no-op returning true when already running;
otherwise connect (a failure returns false with nothing changed), spawn the handler
thread and set running. The connectOk flag models the zmq_connect result. -/
def startDevice (connectOk : Bool) (s : LifecycleState) : Bool × LifecycleState :=
  if s.running then (true, s)
  else if ¬connectOk then (false, s)
  else (true, { running := true, connected := true, threadActive := true })

/-- Embeds stopDeviceIO (lines 175-190): a no-op returning true when already stopped;
otherwise join the handler thread, disconnect (a failure returns false with running
still set), and clear running. The disconnectOk flag models the zmq_disconnect
result. -/
def stopDevice (disconnectOk : Bool) (s : LifecycleState) : Bool × LifecycleState :=
  if ¬s.running then (true, s)
  else if ¬disconnectOk then (false, { s with threadActive := false })
  else (true, { running := false, connected := false, threadActive := false })

/-- Two-channel test configuration: external channels [1, 2] stored 0-based as
[0, 1]. -/
def cfg2 : Config := ⟨[0, 1], 1000000⟩

/-- C1 (amended): in the receive step, the sync-code comparison and the update of
lastSyncReceivedTime/lastSyncReceiptCheckTime are triggered exactly when the matched
channel's position is the last position of the SyncChannelSet; for a TTL event matched
at any earlier position only the received code changes and no comparison occurs. The
last position is the least-significant-carrying, last-configured channel: its mask is
always 1. -/
theorem C1_compare_on_last_position (cfg : Config) (now : Int) (ts : ℚ)
    (e : TTLEvent) (s : SyncState) :
    (((receiveTTL cfg now ts e s).2 = ReceiveOutcome.matched
        ∨ (receiveTTL cfg now ts e s).2 = ReceiveOutcome.mismatched)
      ↔ findSyncIndex cfg.syncChannels e.eventChannel
          = some (cfg.syncChannels.length - 1))
    ∧ (∀ i, findSyncIndex cfg.syncChannels e.eventChannel = some i →
        i ≠ cfg.syncChannels.length - 1 →
        (receiveTTL cfg now ts e s).2 = ReceiveOutcome.bitOnly
        ∧ (receiveTTL cfg now ts e s).1.lastSyncTime = s.lastSyncTime
        ∧ (receiveTTL cfg now ts e s).1.lastSyncValue = s.lastSyncValue
        ∧ (receiveTTL cfg now ts e s).1.oeClockOffset = s.oeClockOffset
        ∧ (receiveTTL cfg now ts e s).1.lastSyncReceivedTime = s.lastSyncReceivedTime
        ∧ (receiveTTL cfg now ts e s).1.lastSyncReceiptCheckTime
            = s.lastSyncReceiptCheckTime)
    ∧ (findSyncIndex cfg.syncChannels e.eventChannel
          = some (cfg.syncChannels.length - 1) →
        (receiveTTL cfg now ts e s).1.lastSyncReceivedTime = now
        ∧ (receiveTTL cfg now ts e s).1.lastSyncReceiptCheckTime = now)
    ∧ maskAt cfg (cfg.syncChannels.length - 1) = 1 := by
  have hmask1 : maskAt cfg (cfg.syncChannels.length - 1) = 1 := by
    rw [maskAt, Nat.sub_self, Nat.shiftLeft_zero]
  cases hf : findSyncIndex cfg.syncChannels e.eventChannel with
  | none =>
      rw [receiveTTL_none cfg now ts e s hf]
      refine ⟨by simp, ?_, ?_, hmask1⟩
      · intro i hi
        cases hi
      · intro h
        cases h
  | some i =>
      by_cases hi : i = cfg.syncChannels.length - 1
      · subst hi
        by_cases hveq : (if e.eventID ≠ 0
              then s.currentOESyncValue ||| maskAt cfg (cfg.syncChannels.length - 1)
              else clearMask s.currentOESyncValue
                (maskAt cfg (cfg.syncChannels.length - 1))) = s.lastSyncValue
        · rw [receiveTTL_last_match cfg now ts e s hf hveq]
          refine ⟨by simp, ?_, ?_, hmask1⟩
          · intro i2 hi2 hne2
            exact absurd (Option.some.injEq _ _ ▸ hi2).symm hne2
          · intro _
            exact ⟨rfl, rfl⟩
        · rw [receiveTTL_last_mismatch cfg now ts e s hf hveq]
          refine ⟨by simp, ?_, ?_, hmask1⟩
          · intro i2 hi2 hne2
            exact absurd (Option.some.injEq _ _ ▸ hi2).symm hne2
          · intro _
            exact ⟨rfl, rfl⟩
      · rw [receiveTTL_some_ne_last cfg now ts e s i hf hi]
        refine ⟨by simp [hi], ?_, ?_, hmask1⟩
        · intro i2 hi2 hne2
          exact ⟨rfl, rfl, rfl, rfl, rfl, rfl⟩
        · intro h
          exact absurd (Option.some.injEq _ _ ▸ h) hi

/-- C1 counterexample: with channels [1, 2] (stored [0, 1]) the comparison is triggered
by the event on the last-configured channel (position 1, stored index 1), whose
controlled bit is the least significant (mask 1); the event on the first-configured
channel only rewrites a bit and triggers nothing, and the first position's mask is the
top bit 2 instead, so the comparison-triggering position is neither
most-significant-carrying nor first-configured. -/
theorem C1_counterexample :
    (receiveTTL cfg2 10 0 ⟨0, 1, 1⟩ ⟨100, 1, 0, 0, 0, 0⟩).2 = ReceiveOutcome.matched
    ∧ (receiveTTL cfg2 10 0 ⟨0, 1, 0⟩ ⟨100, 1, 0, 0, 0, 0⟩).2 = ReceiveOutcome.bitOnly
    ∧ maskAt cfg2 1 = 1
    ∧ maskAt cfg2 0 = 2
    ∧ cfg2.syncChannels.getD 1 0 ≠ cfg2.syncChannels.getD 0 0 := by
  refine ⟨rfl, rfl, by decide, by decide, by decide⟩

/-- C4: when the receive step reports a mismatch, lastSyncValue (the sent code),
currentOESyncValue (the received code) and lastSyncTime (lastSentTime) are all reset to
zero, the clock offset is left unchanged, and the reset state makes the next drive step
fire unconditionally. -/
theorem C4_mismatch_resets (cfg : Config) (now : Int) (ts : ℚ) (e : TTLEvent)
    (s : SyncState) (h : (receiveTTL cfg now ts e s).2 = ReceiveOutcome.mismatched) :
    (receiveTTL cfg now ts e s).1.lastSyncTime = 0
    ∧ (receiveTTL cfg now ts e s).1.lastSyncValue = 0
    ∧ (receiveTTL cfg now ts e s).1.currentOESyncValue = 0
    ∧ (receiveTTL cfg now ts e s).1.oeClockOffset = s.oeClockOffset
    ∧ ∀ tC tA, (driveStep cfg tC tA (receiveTTL cfg now ts e s).1).2 ≠ none := by
  cases hf : findSyncIndex cfg.syncChannels e.eventChannel with
  | none =>
      rw [receiveTTL_none cfg now ts e s hf] at h
      cases h
  | some i =>
      by_cases hi : i = cfg.syncChannels.length - 1
      · subst hi
        by_cases hveq : (if e.eventID ≠ 0
              then s.currentOESyncValue ||| maskAt cfg (cfg.syncChannels.length - 1)
              else clearMask s.currentOESyncValue
                (maskAt cfg (cfg.syncChannels.length - 1))) = s.lastSyncValue
        · rw [receiveTTL_last_match cfg now ts e s hf hveq] at h
          cases h
        · rw [receiveTTL_last_mismatch cfg now ts e s hf hveq]
          refine ⟨rfl, rfl, rfl, rfl, ?_⟩
          intro tC tA
          rw [driveStep, if_pos (Or.inl rfl)]
          exact Option.some_ne_none _
      · rw [receiveTTL_some_ne_last cfg now ts e s i hf hi] at h
        cases h

/-- C4 witness: channels [1, 2], sent code 1, received bits reconstructing 3 — the
mismatch resets the cycle and keeps the stale offset 7. -/
theorem C4_mismatch_resets_witness :
    (receiveTTL cfg2 10 0 ⟨0, 1, 1⟩ ⟨50, 1, 2, 7, 0, 0⟩).1.lastSyncTime = 0
    ∧ (receiveTTL cfg2 10 0 ⟨0, 1, 1⟩ ⟨50, 1, 2, 7, 0, 0⟩).1.lastSyncValue = 0
    ∧ (receiveTTL cfg2 10 0 ⟨0, 1, 1⟩ ⟨50, 1, 2, 7, 0, 0⟩).1.currentOESyncValue = 0
    ∧ (receiveTTL cfg2 10 0 ⟨0, 1, 1⟩ ⟨50, 1, 2, 7, 0, 0⟩).1.oeClockOffset
        = (⟨50, 1, 2, 7, 0, 0⟩ : SyncState).oeClockOffset
    ∧ ∀ tC tA,
        (driveStep cfg2 tC tA (receiveTTL cfg2 10 0 ⟨0, 1, 1⟩ ⟨50, 1, 2, 7, 0, 0⟩).1).2
          ≠ none :=
  C4_mismatch_resets cfg2 10 0 ⟨0, 1, 1⟩ ⟨50, 1, 2, 7, 0, 0⟩ rfl

/-- C5: the drive step fires exactly when lastSyncTime is the zero sentinel or at least
syncInterval has elapsed since it; when it fires it advances the sent code to
(sent + 1) mod 2^n, writes the low-n-bit reversal of the new code to the digital output
(bit j of the written value is bit n-1-j of the code, so the first configured channel
carries the top bit) and records the post-write host time tA; otherwise the state is
unchanged and nothing is written. -/
theorem C5_drive_step (cfg : Config) (tC tA : Int) (s : SyncState) :
    ((s.lastSyncTime = 0 ∨ tC - s.lastSyncTime ≥ cfg.syncInterval) →
      driveStep cfg tC tA s
        = ({ s with
              lastSyncValue := (s.lastSyncValue + 1) % 2 ^ cfg.syncChannels.length,
              lastSyncTime := tA },
           some (reverseBits ((s.lastSyncValue + 1) % 2 ^ cfg.syncChannels.length)
             cfg.syncChannels.length)))
    ∧ (¬(s.lastSyncTime = 0 ∨ tC - s.lastSyncTime ≥ cfg.syncInterval) →
      driveStep cfg tC tA s = (s, none))
    ∧ (∀ v j, j < cfg.syncChannels.length →
        (reverseBits v cfg.syncChannels.length).testBit j
          = v.testBit (cfg.syncChannels.length - 1 - j))
    ∧ (∀ v, reverseBits v cfg.syncChannels.length < 2 ^ cfg.syncChannels.length) := by
  refine ⟨?_, ?_, ?_, ?_⟩
  · intro h
    rw [driveStep, if_pos h, Nat.one_shiftLeft]
  · intro h
    rw [driveStep, if_neg h]
  · intro v j hj
    exact reverseBits_testBit v _ j hj
  · intro v
    exact reverseBits_lt v _

/-- C5 witness: from the initial state the sentinel fires the drive step, sent becomes
1, and the written value is the 2-bit reversal of 1, namely 2 (channel 1 carries the
top bit). -/
theorem C5_drive_step_witness :
    driveStep cfg2 0 100 (initialSyncState 0) = (⟨100, 1, 0, 0, 0, 0⟩, some 2) := by
  have h := (C5_drive_step cfg2 0 100 (initialSyncState 0)).1 (Or.inl rfl)
  rw [h]
  decide

/-- C1 witness: a concrete early-position event (channel 1 of [1, 2]) is a pure
bit-write leaving the offset untouched. -/
theorem C1_compare_on_last_position_witness :
    (receiveTTL cfg2 10 0 ⟨0, 0, 0⟩ ⟨100, 1, 0, 0, 0, 0⟩).2 = ReceiveOutcome.bitOnly
    ∧ (receiveTTL cfg2 10 0 ⟨0, 0, 0⟩ ⟨100, 1, 0, 0, 0, 0⟩).1.oeClockOffset
        = (⟨100, 1, 0, 0, 0, 0⟩ : SyncState).oeClockOffset := by
  have h := (C1_compare_on_last_position cfg2 10 0 ⟨0, 0, 0⟩ ⟨100, 1, 0, 0, 0, 0⟩).2.1
    0 (by decide) (by decide)
  exact ⟨h.1, h.2.2.2.1⟩

/-- C2: round-trip. After the drive step has written a fresh code, feeding back one TTL
event per configured channel in scan order whose line states are the MSB-first bits of
that code yields received = sent = code (the final state keeps lastSyncValue and sets
currentOESyncValue equal to it), produces exactly one comparison — every earlier event
is a pure bit-write and the final event a match — and the single clock-offset update
equals lastSentTime (the post-write time tA) minus the last event's remote timestamp
converted to microseconds. -/
theorem C2_round_trip (cfg : Config) (tC tA : Int) (s0 : SyncState)
    (hnd : cfg.syncChannels.Nodup)
    (hne : cfg.syncChannels ≠ [])
    (hcv : s0.currentOESyncValue < 2 ^ cfg.syncChannels.length)
    (hdrive : s0.lastSyncTime = 0 ∨ tC - s0.lastSyncTime ≥ cfg.syncInterval)
    (times : List (Int × ℚ)) (hlen : times.length = cfg.syncChannels.length) :
    receiveAll cfg (driveStep cfg tC tA s0).1
        (mkRoundTrip cfg (driveStep cfg tC tA s0).1.lastSyncValue 0 times)
      = ({ (driveStep cfg tC tA s0).1 with
            currentOESyncValue := (driveStep cfg tC tA s0).1.lastSyncValue,
            lastSyncReceivedTime := (times.getLastD (0, 0)).1,
            lastSyncReceiptCheckTime := (times.getLastD (0, 0)).1,
            oeClockOffset := tA - secsToUS (times.getLastD (0, 0)).2 },
         List.replicate (cfg.syncChannels.length - 1) ReceiveOutcome.bitOnly
           ++ [ReceiveOutcome.matched]) := by
  have hstep : driveStep cfg tC tA s0
      = ({ s0 with
            lastSyncValue := (s0.lastSyncValue + 1) % 2 ^ cfg.syncChannels.length,
            lastSyncTime := tA },
         some (reverseBits ((s0.lastSyncValue + 1) % 2 ^ cfg.syncChannels.length)
           cfg.syncChannels.length)) := by
    rw [driveStep, if_pos hdrive, Nat.one_shiftLeft]
  have hcc : (s0.lastSyncValue + 1) % 2 ^ cfg.syncChannels.length
      < 2 ^ cfg.syncChannels.length := Nat.mod_lt _ (Nat.two_pow_pos _)
  have hnz : cfg.syncChannels.length ≠ 0 := by
    intro h0
    exact hne (List.length_eq_zero.mp h0)
  have htne : times ≠ [] := by
    intro h0
    rw [h0] at hlen
    exact hnz hlen.symm
  have hbits0 : ∀ j, cfg.syncChannels.length - 0 ≤ j →
      ({ s0 with
          lastSyncValue := (s0.lastSyncValue + 1) % 2 ^ cfg.syncChannels.length,
          lastSyncTime := tA } : SyncState).currentOESyncValue.testBit j
        = ((s0.lastSyncValue + 1) % 2 ^ cfg.syncChannels.length).testBit j := by
    intro j hj
    rw [Nat.sub_zero] at hj
    have h2 : (2 : Nat) ^ cfg.syncChannels.length ≤ 2 ^ j :=
      Nat.pow_le_pow_right (by norm_num) hj
    rw [Nat.testBit_lt_two_pow (lt_of_lt_of_le hcv h2),
      Nat.testBit_lt_two_pow (lt_of_lt_of_le hcc h2)]
  have hres := receiveAll_roundTrip cfg hnd
    ((s0.lastSyncValue + 1) % 2 ^ cfg.syncChannels.length) times 0
    ({ s0 with
        lastSyncValue := (s0.lastSyncValue + 1) % 2 ^ cfg.syncChannels.length,
        lastSyncTime := tA })
    (by rw [Nat.zero_add, hlen]) htne rfl hbits0
  rw [hstep]
  dsimp only
  rw [hres, hlen]

/-- C2 witness: channels [1, 2], initial state; the drive step sends 1, echoing bits
0 then 1 on channels 1 and 2 gives one bit-write then one match, received = sent = 1,
and the offset becomes 100 - 750000 microseconds. -/
theorem C2_round_trip_witness :
    receiveAll cfg2 (driveStep cfg2 0 100 (initialSyncState 0)).1
        (mkRoundTrip cfg2 (driveStep cfg2 0 100 (initialSyncState 0)).1.lastSyncValue 0
          [(5, (1 : ℚ) / 2), (6, (3 : ℚ) / 4)])
      = (⟨100, 1, 1, 100 - secsToUS ((3 : ℚ) / 4), 6, 6⟩,
         [ReceiveOutcome.bitOnly, ReceiveOutcome.matched]) := by
  have h := C2_round_trip cfg2 0 100 (initialSyncState 0) (by decide) (by decide)
    (by decide) (Or.inl rfl) [(5, (1 : ℚ) / 2), (6, (3 : ℚ) / 4)] rfl
  rw [h]
  rfl

lemma eventBuffer_take (payload : List Nat) (i : Nat) :
    eventBuffer (payload.take 28) i = eventBuffer payload i := by
  rw [eventBuffer, eventBuffer, List.take_take, Nat.min_self]

lemma readLE_take (payload : List Nat) : ∀ (len off : Nat),
    readLE (payload.take 28) off len = readLE payload off len := by
  intro len
  induction len with
  | zero => intro off; rfl
  | succ m ih =>
      intro off
      simp only [readLE, eventBuffer_take, ih]

/-- C3 counterexample: a 27-byte Spike payload (one byte short of the 28-byte header)
is not rejected: it decodes successfully, the missing 28th byte reading as zero from
the memset buffer, so the mismatch is not a hard decode failure. -/
theorem C3_counterexample :
    ([64, 226, 1, 0, 0, 0, 0, 0, 0, 0, 0, 0, 0, 0, 0, 0, 0, 0, 0, 0, 0, 0, 7, 0,
        12, 0, 3] : List Nat).length = 27
    ∧ decodeEvent SPIKE
        [64, 226, 1, 0, 0, 0, 0, 0, 0, 0, 0, 0, 0, 0, 0, 0, 0, 0, 0, 0, 0, 0, 7, 0,
          12, 0, 3]
        = some (.spike ⟨123456, 0, 0, 0, 0, 7, 12, 3⟩) := by
  exact ⟨rfl, by decide⟩

/-- C3 (amended): the decoder performs no payload-length validation at all. For both
recognized tags every payload decodes — never a hard failure — with the result
depending only on the first 28 bytes (longer payloads are truncated to the event
buffer) and bytes beyond the payload length reading as zero from the memset buffer;
only the struct layouts themselves are fixed (compile-time static assertions in the
source). -/
theorem C3_no_length_validation :
    (∀ payload : List Nat,
      (decodeEvent TTL payload).isSome = true
      ∧ (decodeEvent SPIKE payload).isSome = true
      ∧ decodeEvent TTL payload = decodeEvent TTL (payload.take 28)
      ∧ decodeEvent SPIKE payload = decodeEvent SPIKE (payload.take 28))
    ∧ (∀ (payload : List Nat) (i : Nat), payload.length ≤ i → eventBuffer payload i = 0) := by
  constructor
  · intro payload
    refine ⟨by simp [decodeEvent], by simp [decodeEvent, TTL, SPIKE], ?_, ?_⟩
    · simp [decodeEvent, eventBuffer_take]
    · simp [decodeEvent, TTL, SPIKE, readLE_take]
  · intro payload i hi
    rw [eventBuffer]
    apply List.getD_eq_default
    calc (payload.take 28).length ≤ payload.length := by
          rw [List.length_take]; omega
      _ ≤ i := hi

/-- C3 witness: a byte index past the payload end reads as zero. -/
theorem C3_no_length_validation_witness : eventBuffer [5] 3 = 0 :=
  C3_no_length_validation.2 [5] 3 (by decide)

/-- C6: every decoded Spike event is forwarded (when spike forwarding is configured)
with the decoded oeTimestamp, sortedID, electrodeID and channel fields at host time
secsToUS(remote seconds) + current clock offset, where secsToUS multiplies by 1e6 and
truncates toward zero; when no offset has ever been established (offset still zero) the
spike is still forwarded, at the uncorrected converted timestamp. -/
theorem C6_spike_dispatch (payload : List Nat) (ts : ℚ) (s : SyncState) (e : SpikeEvent)
    (hd : decodeEvent SPIKE payload = some (.spike e)) :
    dispatchSpike true ts e s
      = some ⟨e.timestamp, e.sortedID, e.electrodeID, e.channel,
          secsToUS ts + s.oeClockOffset⟩
    ∧ (s.oeClockOffset = 0 →
        dispatchSpike true ts e s
          = some ⟨e.timestamp, e.sortedID, e.electrodeID, e.channel, secsToUS ts⟩)
    ∧ e.timestamp = toInt64 (readLE payload 0 8)
    ∧ e.sortedID = readLE payload 22 2
    ∧ e.electrodeID = readLE payload 24 2
    ∧ e.channel = readLE payload 26 2 := by
  have hdec : decodeEvent SPIKE payload
      = some (.spike ⟨toInt64 (readLE payload 0 8), toInt64 (readLE payload 8 8),
          readLE payload 16 2, readLE payload 18 2, readLE payload 20 2,
          readLE payload 22 2, readLE payload 24 2, readLE payload 26 2⟩) := by
    simp [decodeEvent, TTL, SPIKE]
  rw [hdec] at hd
  rw [Option.some.injEq, OEEvent.spike.injEq] at hd
  subst hd
  refine ⟨rfl, ?_, by dsimp only, by dsimp only, by dsimp only, by dsimp only⟩
  intro h0
  simp [dispatchSpike, h0]

/-- C6 witness: the 28-byte spike of spec scenario 3 decodes to sortedID 7,
electrodeID 12, channel 3, timestamp 123456, and is forwarded with exactly those
fields; with the offset still zero the host time is the uncorrected conversion, here
500000 microseconds for remote time 0.5 s. -/
theorem C6_spike_dispatch_witness :
    dispatchSpike true ((1 : ℚ) / 2) ⟨123456, 0, 0, 0, 0, 7, 12, 3⟩ (initialSyncState 0)
      = some ⟨123456, 7, 12, 3, secsToUS ((1 : ℚ) / 2)⟩
    ∧ secsToUS ((1 : ℚ) / 2) = 500000 :=
  ⟨(C6_spike_dispatch
      [64, 226, 1, 0, 0, 0, 0, 0, 0, 0, 0, 0, 0, 0, 0, 0, 0, 0, 0, 0, 0, 0, 7, 0,
        12, 0, 3, 0]
      ((1 : ℚ) / 2) (initialSyncState 0) ⟨123456, 0, 0, 0, 0, 7, 12, 3⟩
      (by decide)).2.1 rfl,
   by norm_num [secsToUS, ratTrunc]⟩

/-- C7: evaluation of the constructor validation. The duplicate list [2, 2] is accepted
and stored as [1, 1] — the ascending-order check compares the raw channel number with
the previous stored 0-based value, so equal neighbours slip through — while descending,
out-of-range and empty inputs are rejected and a valid ascending list is stored
0-based. -/
theorem C7_validation_behavior :
    parseSyncChannels [2, 2] = Except.ok [1, 1]
    ∧ parseSyncChannels [3, 2] = Except.error ConfigError.nonAscending
    ∧ parseSyncChannels [0] = Except.error ConfigError.invalidChannelNumber
    ∧ parseSyncChannels [9] = Except.error ConfigError.invalidChannelNumber
    ∧ parseSyncChannels [] = Except.error ConfigError.emptyChannels
    ∧ parseSyncChannels [1, 2, 5] = Except.ok [0, 1, 4] :=
  ⟨rfl, rfl, rfl, rfl, rfl, rfl⟩

lemma stallStep_fired_iff (now : Int) (s : SyncState) :
    (stallStep now s).2 = true
      ↔ now - s.lastSyncReceiptCheckTime ≥ syncReceiptCheckInterval := by
  by_cases hc : now - s.lastSyncReceiptCheckTime ≥ syncReceiptCheckInterval
  · rw [stallStep, if_pos hc]
    simpa using hc
  · rw [stallStep, if_neg hc]
    simpa using hc

lemma stallStep_state (now : Int) (s : SyncState) :
    (stallStep now s).1
      = if now - s.lastSyncReceiptCheckTime ≥ syncReceiptCheckInterval
        then { s with lastSyncReceiptCheckTime := now } else s := by
  by_cases hc : now - s.lastSyncReceiptCheckTime ≥ syncReceiptCheckInterval
  · rw [stallStep, if_pos hc, if_pos hc]
  · rw [stallStep, if_neg hc, if_neg hc]

/-- C8: under the invariant lastSyncReceivedTime ≤ lastSyncReceiptCheckTime (true
initially, re-established by every full-code receipt, and preserved by the stall check
itself), the stall diagnostic fires only when the last successful full-code receipt is
at least syncReceiptCheckInterval (5 s) old; it fires exactly when the last check time
is that old, so after a firing at time now no further firing can occur before
now + syncReceiptCheckInterval; and a firing changes none of the synchronization state
(sent, received, lastSentTime, lastReceivedTime, clock offset). -/
theorem C8_stall_throttled (now : Int) (s : SyncState)
    (hinv : s.lastSyncReceivedTime ≤ s.lastSyncReceiptCheckTime) :
    ((stallStep now s).2 = true
      ↔ now - s.lastSyncReceiptCheckTime ≥ syncReceiptCheckInterval)
    ∧ ((stallStep now s).2 = true →
        now - s.lastSyncReceivedTime ≥ syncReceiptCheckInterval)
    ∧ ((stallStep now s).2 = true → ∀ t, (stallStep t (stallStep now s).1).2 = true →
        t - now ≥ syncReceiptCheckInterval)
    ∧ (stallStep now s).1.lastSyncTime = s.lastSyncTime
    ∧ (stallStep now s).1.lastSyncValue = s.lastSyncValue
    ∧ (stallStep now s).1.currentOESyncValue = s.currentOESyncValue
    ∧ (stallStep now s).1.oeClockOffset = s.oeClockOffset
    ∧ (stallStep now s).1.lastSyncReceivedTime = s.lastSyncReceivedTime
    ∧ (stallStep now s).1.lastSyncReceivedTime
        ≤ (stallStep now s).1.lastSyncReceiptCheckTime := by
  have hI : syncReceiptCheckInterval = 5000000 := rfl
  refine ⟨stallStep_fired_iff now s, ?_, ?_, ?_, ?_, ?_, ?_, ?_, ?_⟩
  · intro h
    have hc := (stallStep_fired_iff now s).mp h
    rw [hI] at hc ⊢
    omega
  · intro h t ht
    have hc := (stallStep_fired_iff now s).mp h
    have hc2 := (stallStep_fired_iff t _).mp ht
    rw [stallStep_state, if_pos hc] at hc2
    dsimp only at hc2
    rw [hI] at hc2 ⊢
    omega
  · rw [stallStep_state]
    split
    · rfl
    · rfl
  · rw [stallStep_state]
    split
    · rfl
    · rfl
  · rw [stallStep_state]
    split
    · rfl
    · rfl
  · rw [stallStep_state]
    split
    · rfl
    · rfl
  · rw [stallStep_state]
    split
    · rfl
    · rfl
  · rw [stallStep_state]
    split
    · rename_i hcond
      dsimp only
      rw [hI] at hcond
      omega
    · exact hinv

/-- C8 witness: from the initial state at time 0, the check at time 6000000
microseconds fires and reports the receipt as at least 5 s old. -/
theorem C8_stall_throttled_witness :
    ((stallStep 6000000 (initialSyncState 0)).2 = true
      ↔ 6000000 - (initialSyncState 0).lastSyncReceiptCheckTime
          ≥ syncReceiptCheckInterval)
    ∧ ((stallStep 6000000 (initialSyncState 0)).2 = true →
        6000000 - (initialSyncState 0).lastSyncReceivedTime
          ≥ syncReceiptCheckInterval) := by
  have h := C8_stall_throttled 6000000 (initialSyncState 0) (by decide)
  exact ⟨h.1, h.2.1⟩

/-- C9: stopDeviceIO when already stopped and startDeviceIO when already running are
no-ops returning success, leaving the running flag, the transport connection and the
processing thread unchanged, whatever the transport operations would have returned. -/
theorem C9_start_stop_idempotent (ok : Bool) (s : LifecycleState) :
    (s.running = true → startDevice ok s = (true, s))
    ∧ (s.running = false → stopDevice ok s = (true, s)) := by
  constructor
  · intro h
    rw [startDevice, if_pos h]
  · intro h
    rw [stopDevice, if_pos (by simp [h])]

/-- C9 witness: a redundant start on a running device and a redundant stop on a stopped
device both succeed and change nothing, even with the transport primed to fail. -/
theorem C9_start_stop_idempotent_witness :
    startDevice false ⟨true, true, true⟩ = (true, ⟨true, true, true⟩)
    ∧ stopDevice false ⟨false, false, false⟩ = (true, ⟨false, false, false⟩) :=
  ⟨(C9_start_stop_idempotent false ⟨true, true, true⟩).1 rfl,
   (C9_start_stop_idempotent false ⟨false, false, false⟩).2 rfl⟩

/-- C10: the receive step matches inbound TTL events against the stored 0-based
indices. For a valid configuration of 1-based external channel numbers, an event is
treated as a sync bit exactly when its eventChannel field equals c - 1 for some
configured external number c; an event whose eventChannel equals a configured external
number c itself is matched — to the position holding external channel c + 1 — exactly
when c + 1 is also configured, and is ignored otherwise. -/
theorem C10_zero_based_matching (ext : List Int)
    (h1 : ∀ c ∈ ext, 1 ≤ c ∧ c ≤ 8) :
    (∀ ec : Nat, (findSyncIndex (ext.map fun v => (v - 1).toNat) ec).isSome = true
      ↔ ∃ c ∈ ext, (ec : Int) = c - 1)
    ∧ (∀ c ∈ ext, (findSyncIndex (ext.map fun v => (v - 1).toNat) c.toNat).isSome = true
      ↔ (c + 1) ∈ ext)
    ∧ (∀ c ∈ ext, ∀ i,
        findSyncIndex (ext.map fun v => (v - 1).toNat) c.toNat = some i →
        ext.getD i 0 = c + 1) := by
  refine ⟨?_, ?_, ?_⟩
  · intro ec
    rw [findSyncIndex_isSome, List.mem_map]
    constructor
    · rintro ⟨c, hc, hceq⟩
      obtain ⟨hc1, hc8⟩ := h1 c hc
      exact ⟨c, hc, by omega⟩
    · rintro ⟨c, hc, hceq⟩
      obtain ⟨hc1, hc8⟩ := h1 c hc
      exact ⟨c, hc, by omega⟩
  · intro c hc
    obtain ⟨hc1, hc8⟩ := h1 c hc
    rw [findSyncIndex_isSome, List.mem_map]
    constructor
    · rintro ⟨d, hd, hdeq⟩
      obtain ⟨hd1, hd8⟩ := h1 d hd
      have : d = c + 1 := by omega
      exact this ▸ hd
    · intro hmem
      obtain ⟨he1, he8⟩ := h1 (c + 1) hmem
      exact ⟨c + 1, hmem, by omega⟩
  · intro c hc i hfi
    obtain ⟨hc1, hc8⟩ := h1 c hc
    obtain ⟨hlt, hget⟩ := findSyncIndex_some _ _ _ hfi
    rw [List.length_map] at hlt
    rw [List.getD_eq_getElem _ _ (by rw [List.length_map]; exact hlt),
      List.getElem_map] at hget
    have hmem : ext[i] ∈ ext := List.getElem_mem hlt
    obtain ⟨hm1, hm8⟩ := h1 _ hmem
    rw [List.getD_eq_getElem _ _ hlt]
    omega

/-- C10 witness: with external channels [1, 2], an event with eventChannel 1 (the
0-based index of external channel 2) is matched iff external channel 2 is configured,
and an event with eventChannel 2 (external number 2 itself) is matched iff channel 3 is
configured — which it is not, so that event is ignored. -/
theorem C10_zero_based_matching_witness :
    ((findSyncIndex (([1, 2] : List Int).map fun v => (v - 1).toNat)
        (Int.toNat 1)).isSome = true
      ↔ ((1 : Int) + 1) ∈ ([1, 2] : List Int))
    ∧ ((findSyncIndex (([1, 2] : List Int).map fun v => (v - 1).toNat)
        (Int.toNat 2)).isSome = true
      ↔ ((2 : Int) + 1) ∈ ([1, 2] : List Int)) :=
  ⟨(C10_zero_based_matching [1, 2] (by decide)).2.1 1 (by decide),
   (C10_zero_based_matching [1, 2] (by decide)).2.1 2 (by decide)⟩
